import Mathlib

/-!
Shallow embedding of `src/dag/mod.rs` of the era-boojum witness-resolution
engine, together with proofs checking the natural-language specification
against it.

The file is organised as: first all definitions — the data model (Place,
CSWitnessValues, records, options, trait signatures), the embedding of
`CSWitnessValues::wait` (spin phase, sleep phase), and spec-modelled
components whose implementation is not under `src/` (the variable store
behind `try_get_value`, the registrar's duplicate-output check) — then the
lemmas and one theorem per claim.
-/

/-- Embedding of `crate::cs::Place`: an opaque, dense, comparable identifier
for one circuit variable slot.  Its definition is outside `src/dag/mod.rs`;
the module only uses it as an opaque comparable key, so a wrapped `Nat`
suffices. -/
structure Place where
  id : Nat
deriving DecidableEq, Repr

/-- Embedding of the Rust `std::sync::atomic::Ordering` enum, used to record
which memory-ordering argument each atomic operation in the source passes. -/
inductive AtomicOrdering where
  | relaxed
  | acquire
  | release
  | acqRel
  | seqCst
deriving DecidableEq, Repr

/-- Ordering passed to `barrier.load` in the spin loop of
`CSWitnessValues::wait` (mod.rs line 63): `Ordering::Relaxed`. -/
def waitSpinBarrierLoadOrdering : AtomicOrdering := .relaxed

/-- Ordering passed to `barrier.load` in the sleep loop of
`CSWitnessValues::wait` (mod.rs line 73): `Ordering::Relaxed`. -/
def waitSleepBarrierLoadOrdering : AtomicOrdering := .relaxed

/-- Embedding of `CSWitnessValues<F, N, S>` (mod.rs lines 34-43).
The `Waiting` variant's `barrier: Arc<AtomicBool>` is modelled as the trace
of values its successive `load` calls observe (`barrier i` is the value the
`i`-th load reads); `witness_source: Arc<S>` is modelled by its
`get_value_unchecked` function (once the readiness flag is up the value is
final, so a pure function is faithful); `sources: [Place; N]` is a length-`N`
tuple of places. -/
inductive CSWitnessValues (F : Type) (N : Nat) where
  | Placeholder
  | Ready (value : Fin N → F)
  | Waiting (barrier : Nat → Bool) (witness_source : Place → F)
      (sources : Fin N → Place)

/-- `CSWitnessValues::NUM_SPINS` (mod.rs line 46). -/
def NUM_SPINS : Nat := 16

/-- `CSWitnessValues::SLEEP_DURATION` (mod.rs line 47), in milliseconds. -/
def SLEEP_DURATION_MS : Nat := 10

/-- The spin loop of `wait` (mod.rs lines 61-69):
`for _ in 0..NUM_SPINS { if !barrier.load() { spin_loop() } else { ready = true; break } }`.
`fuel` is the remaining iteration count, `ix` the index of the next barrier
load in the observed trace.  Returns `(ready, next load index)`. -/
def spinPhase (barrier : Nat → Bool) : Nat → Nat → Bool × Nat
  | 0, ix => (false, ix)
  | fuel + 1, ix =>
    if barrier ix then (true, ix + 1) else spinPhase barrier fuel (ix + 1)

/-- The sleep loop of `wait` (mod.rs lines 71-74):
`while !ready { std::thread::sleep(SLEEP_DURATION); ready = barrier.load(); }`.
Each iteration sleeps once, then loads the barrier at trace index `ix`.
Returns `(next load index, total sleep count)`.  Termination comes from the
hypothesis that the barrier trace eventually reads `true` at or after `ix`
(readiness is monotonic in the real system, so a raised flag is seen). -/
def sleepPhase (barrier : Nat → Bool) (ix sleeps : Nat)
    (h : ∃ n, ix ≤ n ∧ barrier n = true) : Nat × Nat :=
  if hb : barrier ix then (ix + 1, sleeps + 1)
  else
    sleepPhase barrier (ix + 1) (sleeps + 1) (by
      obtain ⟨n, hn, hbn⟩ := h
      refine ⟨n, ?_, hbn⟩
      rcases Nat.eq_or_lt_of_le hn with rfl | hlt
      · exact absurd hbn hb
      · exact hlt)
termination_by Nat.find h - ix
decreasing_by
  have hspec := Nat.find_spec h
  have hne : Nat.find h ≠ ix := fun he => hb (he ▸ hspec.2)
  have hge : ix + 1 ≤ Nat.find h := Nat.lt_of_le_of_ne hspec.1 (Ne.symm hne)
  have hle : ∀ hP : ∃ n, ix + 1 ≤ n ∧ barrier n = true,
      Nat.find hP ≤ Nat.find h :=
    fun hP => Nat.find_min' hP ⟨hge, hspec.2⟩
  exact Nat.lt_of_le_of_lt (Nat.sub_le_sub_right (hle _) (ix + 1)) (by omega)

/-- Reading the witnesses once the barrier was observed raised
(mod.rs lines 76-79): `witnesses[i] = witness_source.get_value_unchecked(sources[i])`.
The `[F::ZERO; N]` initialisation is fully overwritten by the zip over the
two length-`N` arrays, so it does not appear. -/
def readWitnesses {F : Type} {N : Nat} (witness_source : Place → F)
    (sources : Fin N → Place) : Fin N → F :=
  fun i => witness_source (sources i)

/-- The observable outcome of one `wait` call: the returned option, the state
`self` holds afterwards, how many barrier loads happened, how many sleeps
happened, and how many `get_value_unchecked` reads happened. -/
structure WaitOutcome (F : Type) (N : Nat) where
  result : Option (Fin N → F)
  state : CSWitnessValues F N
  loads : Nat
  sleeps : Nat
  sourceReads : Nat

/-- Termination precondition of `wait`: in the `Waiting` variant the barrier
trace must eventually read `true` (in the real system the producer raises the
flag and it never resets); the other variants return immediately. -/
def CSWitnessValues.terminates {F : Type} {N : Nat} :
    CSWitnessValues F N → Prop
  | .Waiting barrier _ _ => ∃ n, barrier n = true
  | _ => True

/-- Embedding of `CSWitnessValues::wait` (mod.rs lines 51-86).
`Placeholder` returns `None`; `Ready(v)` returns `Some(v)`; `Waiting` runs
the spin loop, then (if still not ready) the sleep loop, reads the witnesses,
assigns `*self = Ready(witnesses)` and tail-calls `self.wait()`, which then
returns `Some(witnesses)` — here the tail call is inlined as the returned
result. -/
def CSWitnessValues.wait {F : Type} {N : Nat} :
    (s : CSWitnessValues F N) → s.terminates → WaitOutcome F N
  | .Placeholder, _ => ⟨none, .Placeholder, 0, 0, 0⟩
  | .Ready v, _ => ⟨some v, .Ready v, 0, 0, 0⟩
  | .Waiting barrier witness_source sources, h =>
    match hs : spinPhase barrier NUM_SPINS 0 with
    | (true, ix) =>
      let w := readWitnesses witness_source sources
      ⟨some w, .Ready w, ix, 0, N⟩
    | (false, ix) =>
      let l := sleepPhase barrier ix 0 (by
        -- the spin loop ran dry, so every read below `ix` was `false` and
        -- the flag the termination hypothesis promises lies at or after `ix`
        have key : ∀ fuel start ixx, spinPhase barrier fuel start = (false, ixx) →
            ∀ n, start ≤ n → n < ixx → barrier n = false := by
          intro fuel
          induction fuel with
          | zero =>
            intro start ixx hh n h1 h2
            simp only [spinPhase] at hh
            have hix : start = ixx := congrArg Prod.snd hh
            exact absurd h2 (by omega)
          | succ fuel ih =>
            intro start ixx hh n h1 h2
            simp only [spinPhase] at hh
            by_cases hb : barrier start = true
            · rw [if_pos hb] at hh
              exact absurd (congrArg Prod.fst hh) (by simp)
            · rw [if_neg hb] at hh
              rcases Nat.eq_or_lt_of_le h1 with rfl | hlt
              · simpa using hb
              · exact ih (start + 1) ixx hh n hlt h2
        obtain ⟨n, hbn⟩ := h
        by_cases hn : ix ≤ n
        · exact ⟨n, hn, hbn⟩
        · exact absurd hbn (by
            simp [key NUM_SPINS 0 ix hs n (Nat.zero_le n) (by omega)]))
      let w := readWitnesses witness_source sources
      ⟨some w, .Ready w, l.1, l.2, N⟩

/-- Embedding of `CircuitResolverOpts` (mod.rs lines 130-136): `max_variables`
(Rust `usize`) and `desired_parallelism` (Rust `u32`) as naturals; no
arithmetic is performed on them here, so no wraparound is involved. -/
structure CircuitResolverOpts where
  max_variables : Nat
  desired_parallelism : Nat
deriving DecidableEq, Repr

/-- Embedding of `CircuitResolverOpts::new` (mod.rs lines 139-144):
`Self { max_variables, desired_parallelism: 1 << 12 }`. -/
def CircuitResolverOpts.new (max_variables : Nat) : CircuitResolverOpts :=
  { max_variables := max_variables
    desired_parallelism := 1 <<< 12 }

/-- Embedding of `ResolutionRecordItem` (mod.rs lines 174-182).
`added_at`/`accepted_at` have type `RegistrationNum` and `order_ix` has type
`resolver::OrderIx`; both are integer newtypes defined outside `src/`, and
`parallelism` is a `u16`; all are modelled as naturals since this module does
no arithmetic on them. -/
structure ResolutionRecordItem where
  added_at : Nat
  accepted_at : Nat
  order_len : Nat
  order_ix : Nat
  parallelism : Nat
deriving DecidableEq, Repr

/-- The `#[derive(Default)]` instance of `ResolutionRecordItem`: every numeric
field defaults to zero. -/
def ResolutionRecordItem.defaultItem : ResolutionRecordItem :=
  { added_at := 0, accepted_at := 0, order_len := 0, order_ix := 0,
    parallelism := 0 }

/-- Embedding of `ResolutionRecord` (mod.rs lines 184-189). -/
structure ResolutionRecord where
  items : List ResolutionRecordItem
  registrations_count : Nat
  values_count : Nat
deriving DecidableEq, Repr

/-- Embedding of `ResolutionRecord::new` (mod.rs lines 191-201):
`Vec::with_capacity(size)` then `resize_with(size, Default::default)` produces
a vector of exactly `size` default items. -/
def ResolutionRecord.new (registrations_count values_count size : Nat) :
    ResolutionRecord :=
  { items := List.replicate size ResolutionRecordItem.defaultItem
    registrations_count := registrations_count
    values_count := values_count }

/-- Signature of one trait method: its name, its non-`self` parameter types
and its return type, transcribed from the Rust source (lifetimes elided,
`()` for no return value). -/
structure MethodSig where
  name : String
  params : List String
  ret : String
deriving DecidableEq, Repr

/-- Method list of the trait `ResolverSortingMode<F>` (mod.rs lines 205-237),
in source order, with the Rust signatures transcribed. -/
def resolverSortingModeMethods : List MethodSig :=
  [ { name := "new",
      params := ["Self::Arg", "Arc<ResolverComms>", "&Vec<Place>"],
      ret := "(Self, Arc<ResolverCommonData<F, Self::TrackId>>)" },
    { name := "set_value", params := ["Place", "F"], ret := "()" },
    { name := "add_resolution", params := ["&[Place]", "&[Place]", "Fn"],
      ret := "()" },
    { name := "internalize",
      params := ["ResolverIx", "&[Place]", "&[Place]", "RegistrationNum"],
      ret := "()" },
    { name := "internalize_one",
      params := ["ResolverIx", "&[Place]", "&[Place]", "RegistrationNum"],
      ret := "Vec<ResolverIx>" },
    { name := "flush", params := [], ret := "()" },
    { name := "final_flush", params := [], ret := "()" },
    { name := "write_sequence", params := [], ret := "()" },
    { name := "retrieve_sequence", params := [], ret := "&ResolutionRecord" } ]

/-- Method list of the trait `CircuitResolver<F, Cfg>` (mod.rs lines 240-257),
in source order. -/
def circuitResolverMethods : List MethodSig :=
  [ { name := "new", params := ["Self::Arg"], ret := "Self" },
    { name := "set_value", params := ["Place", "F"], ret := "()" },
    { name := "add_resolution", params := ["&[Place]", "&[Place]", "Fn"],
      ret := "()" },
    { name := "wait_till_resolved", params := [], ret := "()" },
    { name := "clear", params := [], ret := "()" } ]

/-- Supertrait bounds of `CircuitResolver` (mod.rs lines 243-246). -/
def circuitResolverSupertraits : List String :=
  ["WitnessSource<F>", "WitnessSourceAwaitable<F>", "CSWitnessSource<F>",
   "Send", "Sync"]

/-- The three façade variants exposed by the module. -/
inductive ResolverVariantKind where
  | nullStub
  | singleThreaded
  | multiThreaded (sorter : String)
deriving DecidableEq, Repr

/-- The façade type aliases of mod.rs lines 259-269, with the variant each
one denotes: `NullCircuitResolver` is the test stub,
`StCircuitResolver` the single-threaded resolver, and
`DefaultCircuitResolver` the multithreaded resolver instantiated with the
`RuntimeResolverSorter` (discover) sorting strategy. -/
def circuitResolverVariants : List (String × ResolverVariantKind) :=
  [ ("NullCircuitResolver", .nullStub),
    ("DefaultCircuitResolver", .multiThreaded "RuntimeResolverSorter"),
    ("StCircuitResolver", .singleThreaded) ]

/-- Modelled from the spec: the variable store backing the `WitnessSource`
trait (mod.rs lines 98-103 declares `try_get_value`/`get_value_unchecked`,
but the implementing store lives in `dag/resolvers` and `dag/primitives`,
which are not under `src/`).  Per spec section 3, it is one cell per Place,
`unset` or `ready(value)`, transitioning at most once into `ready`. -/
structure VariableStore (F : Type) where
  cells : Place → Option F

/-- Modelled from the spec: `try_get_value(place)` is non-blocking and returns
`none` if the cell is not yet ready, the held value otherwise. -/
def VariableStore.try_get_value {F : Type} (s : VariableStore F) (p : Place) :
    Option F :=
  s.cells p

/-- Modelled from the spec: writing one cell respects single assignment —
a write to an already-ready cell is rejected (`none`), a write to an unset
cell produces the updated store. -/
def VariableStore.set_cell {F : Type} (s : VariableStore F) (p : Place)
    (v : F) : Option (VariableStore F) :=
  match s.cells p with
  | some _ => none
  | none => some ⟨fun q => if q = p then some v else s.cells q⟩

/-- Modelled from the spec: a session is a sequence of attempted cell writes
(direct assignments and task-output publications); rejected writes leave the
store unchanged. -/
def VariableStore.runWrites {F : Type} (s : VariableStore F) :
    List (Place × F) → VariableStore F
  | [] => s
  | (p, v) :: rest =>
    match s.set_cell p v with
    | some s2 => s2.runWrites rest
    | none => s.runWrites rest

/-- Registration errors of the spec's error taxonomy that concern the
registrar. -/
inductive RegistrationError where
  | DuplicateOutput
deriving DecidableEq, Repr

/-- Modelled from the spec: the registrar state relevant to `internalize` —
the set of output Places already claimed (by earlier tasks' outputs or by
direct assignments) and the next free task index.  The implementing code
(`dag/registrar.rs` and the sorter implementations) is not under `src/`. -/
structure RegistrarState where
  claimed : List Place
  tasks : List (List Place × List Place × Nat)
deriving DecidableEq, Repr

/-- Modelled from the spec: `internalize(inputs, outputs, added_at) -> index`
registers a task and fails with `DuplicateOutput` if any output Place is
already claimed.  On success the new task `(inputs, outputs, added_at)`
receives the next free index (indices are never reused within a session)
and its outputs become claimed. -/
def registrarInternalize (st : RegistrarState) (inputs outputs : List Place)
    (added_at : Nat) : Except RegistrationError (Nat × RegistrarState) :=
  if outputs.any (fun o => st.claimed.contains o) then
    .error .DuplicateOutput
  else
    .ok (st.tasks.length,
      { claimed := st.claimed ++ outputs
        tasks := st.tasks ++ [(inputs, outputs, added_at)] })

/-- If the spin loop ends not-ready, it performed exactly `fuel` loads and
every one of them read `false`. -/
theorem spinPhase_false_reads (barrier : Nat → Bool) :
    ∀ fuel start ix, spinPhase barrier fuel start = (false, ix) →
      ix = start + fuel ∧ ∀ n, start ≤ n → n < ix → barrier n = false := by
  intro fuel
  induction fuel with
  | zero =>
    intro start ix h
    simp only [spinPhase] at h
    have hix : start = ix := congrArg Prod.snd h
    subst hix
    exact ⟨by omega, fun n h1 h2 => absurd (lt_of_le_of_lt h1 h2) (lt_irrefl _)⟩
  | succ fuel ih =>
    intro start ix h
    simp only [spinPhase] at h
    by_cases hb : barrier start = true
    · rw [if_pos hb] at h
      exact absurd (congrArg Prod.fst h) (by simp)
    · rw [if_neg hb] at h
      obtain ⟨hix, hall⟩ := ih (start + 1) ix h
      refine ⟨by omega, fun n h1 h2 => ?_⟩
      rcases Nat.eq_or_lt_of_le h1 with rfl | hlt
      · simpa using hb
      · exact hall n hlt h2

/-- If the first `true` in the trace from `start` on is at index `k` with
`k < start + fuel`, the spin loop ends ready, having loaded through index
`k`. -/
theorem spinPhase_true_at (barrier : Nat → Bool) :
    ∀ fuel start k, start ≤ k → k < start + fuel →
      (∀ n, start ≤ n → n < k → barrier n = false) → barrier k = true →
      spinPhase barrier fuel start = (true, k + 1) := by
  intro fuel
  induction fuel with
  | zero => intro start k h1 h2 _ _; omega
  | succ fuel ih =>
    intro start k h1 h2 hall hk
    simp only [spinPhase]
    rcases Nat.eq_or_lt_of_le h1 with rfl | hlt
    · rw [if_pos hk]
    · rw [if_neg (by simp [hall start (le_refl _) hlt])]
      exact ih (start + 1) k hlt (by omega) (fun n hn1 hn2 => hall n (by omega) hn2) hk

/-- If the trace reads `false` on the whole window `[start, start + fuel)`,
the spin loop ends not-ready after exactly `fuel` loads. -/
theorem spinPhase_false_at (barrier : Nat → Bool) :
    ∀ fuel start, (∀ n, start ≤ n → n < start + fuel → barrier n = false) →
      spinPhase barrier fuel start = (false, start + fuel) := by
  intro fuel
  induction fuel with
  | zero => intro start _; simp [spinPhase]
  | succ fuel ih =>
    intro start hall
    simp only [spinPhase]
    rw [if_neg (by simp [hall start le_rfl (by omega)])]
    rw [ih (start + 1) (fun n h1 h2 => hall n (by omega) (by omega))]
    congr 1
    omega

/-- Characterisation of the sleep loop: if the first raised flag at or after
`ix` is at trace index `k`, the loop does `k + 1 - ix` sleep/load iterations
and ends having loaded through index `k`. -/
theorem sleepPhase_eq (barrier : Nat → Bool) :
    ∀ d ix sleeps h k, k - ix = d → ix ≤ k → barrier k = true →
      (∀ n, ix ≤ n → n < k → barrier n = false) →
      sleepPhase barrier ix sleeps h = (k + 1, sleeps + (k - ix) + 1) := by
  intro d
  induction d with
  | zero =>
    intro ix sleeps h k hd hik hk _
    have hkix : k = ix := by omega
    subst hkix
    rw [sleepPhase, dif_pos hk]
    have hz : k - k = 0 := by omega
    rw [hz]
  | succ d ih =>
    intro ix sleeps h k hd hik hk hall
    have hbix : barrier ix = false := hall ix le_rfl (by omega)
    rw [sleepPhase, dif_neg (by simp [hbix])]
    rw [ih (ix + 1) (sleeps + 1) _ k (by omega) (by omega) hk
      (fun n h1 h2 => hall n (by omega) h2)]
    have he : sleeps + 1 + (k - (ix + 1)) + 1 = sleeps + (k - ix) + 1 := by omega
    rw [he]

/-- Characterisation of `wait` on the `Waiting` variant: with `k` the index of
the first raised-flag observation, it performs `k + 1` barrier loads and
`k - (NUM_SPINS - 1)` sleeps (so zero sleeps whenever the flag is seen during
the spin phase), returns the witnesses read from the source, and leaves the
value in the `Ready` state. -/
theorem wait_waiting_eq {F : Type} {N : Nat} (barrier : Nat → Bool)
    (witness_source : Place → F) (sources : Fin N → Place)
    (h : ∃ n, barrier n = true) :
    (CSWitnessValues.Waiting barrier witness_source sources).wait h =
      ⟨some (readWitnesses witness_source sources),
       .Ready (readWitnesses witness_source sources),
       Nat.find h + 1, Nat.find h - (NUM_SPINS - 1), N⟩ := by
  have hk := Nat.find_spec h
  have hmin : ∀ n, n < Nat.find h → barrier n = false := by
    intro n hn
    have := Nat.find_min h hn
    simpa using this
  simp only [CSWitnessValues.wait]
  split
  case _ ix heq =>
    by_cases hlt : Nat.find h < NUM_SPINS
    · have hsp := spinPhase_true_at barrier NUM_SPINS 0 (Nat.find h)
        (Nat.zero_le _) (by omega) (fun n _ hn => hmin n hn) hk
      rw [heq] at hsp
      have hix : ix = Nat.find h + 1 := ((Prod.mk.injEq _ _ _ _).mp hsp.symm).2.symm
      subst hix
      have hz : Nat.find h - (NUM_SPINS - 1) = 0 := by
        simp only [NUM_SPINS] at hlt ⊢
        omega
      rw [hz]
    · exfalso
      have hsp := spinPhase_false_at barrier NUM_SPINS 0
        (fun n _ hn => hmin n (by omega))
      rw [heq] at hsp
      exact absurd (congrArg Prod.fst hsp) (by simp)
  case _ ix heq =>
    have hfa := spinPhase_false_reads barrier NUM_SPINS 0 ix heq
    have hix : ix = NUM_SPINS := by omega
    subst hix
    have hge : NUM_SPINS ≤ Nat.find h := by
      by_contra hcon
      exact absurd hk (by simp [hfa.2 (Nat.find h) (Nat.zero_le _) (by omega)])
    rw [sleepPhase_eq barrier (Nat.find h - NUM_SPINS) NUM_SPINS 0 _ (Nat.find h)
      rfl hge hk (fun n h1 h2 => hmin n h2)]
    have he : 0 + (Nat.find h - NUM_SPINS) + 1 = Nat.find h - (NUM_SPINS - 1) := by
      simp only [NUM_SPINS] at hge ⊢
      omega
    rw [he]

/-- A successful single-cell write never disturbs a cell that already holds a
value (it can only fill a different, unset cell). -/
theorem set_cell_preserves {F : Type} (s s2 : VariableStore F)
    (q p : Place) (w v : F) (hw : s.set_cell q w = some s2)
    (hv : s.try_get_value p = some v) : s2.try_get_value p = some v := by
  unfold VariableStore.set_cell at hw
  unfold VariableStore.try_get_value at hv ⊢
  rcases hq : s.cells q with _ | u
  · rw [hq] at hw
    have hs2 := (Option.some.injEq _ _).mp hw
    subst hs2
    by_cases hpq : p = q
    · subst hpq
      rw [hq] at hv
      exact absurd hv (by simp)
    · simpa [hpq] using hv
  · rw [hq] at hw
    exact absurd hw (by simp)

/-- Monotonicity of the variable store over a whole write sequence: a value
observed once is observed unchanged after any further writes. -/
theorem runWrites_preserves {F : Type} :
    ∀ (writes : List (Place × F)) (s : VariableStore F) (p : Place) (v : F),
      s.try_get_value p = some v →
      (s.runWrites writes).try_get_value p = some v := by
  intro writes
  induction writes with
  | nil => intro s p v hv; exact hv
  | cons pv rest ih =>
    intro s p v hv
    obtain ⟨q, w⟩ := pv
    simp only [VariableStore.runWrites]
    rcases hw : s.set_cell q w with _ | s2
    · exact ih s p v hv
    · exact ih s2 p v (set_cell_preserves s s2 q p w v hw hv)

/-- Claim C5: for every `n`, `CircuitResolverOpts::new(n)` yields
`max_variables = n` and `desired_parallelism = 1 << 12 = 4096`. -/
theorem claim_C5 (n : Nat) :
    (CircuitResolverOpts.new n).max_variables = n ∧
    (CircuitResolverOpts.new n).desired_parallelism = 4096 ∧
    (CircuitResolverOpts.new n).desired_parallelism = 1 <<< 12 :=
  ⟨rfl, by show (1 <<< 12 : Nat) = 4096; decide, rfl⟩

/-- Claim C6: a resolution record item consists of exactly the five fields
`added_at`, `accepted_at`, `order_len`, `order_ix`, `parallelism` (two items
agreeing on those five fields are equal), and a resolution record consists of
exactly its ordered `items` sequence plus the counters `registrations_count`
and `values_count`. -/
theorem claim_C6 :
    (∀ a b : ResolutionRecordItem,
      a.added_at = b.added_at → a.accepted_at = b.accepted_at →
      a.order_len = b.order_len → a.order_ix = b.order_ix →
      a.parallelism = b.parallelism → a = b) ∧
    (∀ r s : ResolutionRecord,
      r.items = s.items → r.registrations_count = s.registrations_count →
      r.values_count = s.values_count → r = s) := by
  constructor
  · intro a b h1 h2 h3 h4 h5
    cases a
    cases b
    simp_all
  · intro r s h1 h2 h3
    cases r
    cases s
    simp_all

/-- Witness for C6 at concrete records. -/
theorem claim_C6_witness :
    (⟨1, 2, 3, 4, 5⟩ : ResolutionRecordItem) = ⟨1, 2, 3, 4, 5⟩ ∧
    (⟨[], 7, 8⟩ : ResolutionRecord) = ⟨[], 7, 8⟩ :=
  ⟨claim_C6.1 ⟨1, 2, 3, 4, 5⟩ ⟨1, 2, 3, 4, 5⟩ rfl rfl rfl rfl rfl,
   claim_C6.2 ⟨[], 7, 8⟩ ⟨[], 7, 8⟩ rfl rfl rfl⟩

/-- Claim C10: `ResolutionRecord::new(r, v, s)` returns a record with
`registrations_count = r`, `values_count = v`, and an items vector of length
exactly `s` whose every element is the all-zero default item. -/
theorem claim_C10 (r v s : Nat) :
    (ResolutionRecord.new r v s).registrations_count = r ∧
    (ResolutionRecord.new r v s).values_count = v ∧
    (ResolutionRecord.new r v s).items.length = s ∧
    (∀ it ∈ (ResolutionRecord.new r v s).items,
      it = ResolutionRecordItem.defaultItem) ∧
    ResolutionRecordItem.defaultItem =
      { added_at := 0, accepted_at := 0, order_len := 0, order_ix := 0,
        parallelism := 0 } := by
  refine ⟨rfl, rfl, List.length_replicate _ _, ?_, rfl⟩
  intro it hit
  exact List.eq_of_mem_replicate hit

/-- Witness for C10 at `r = 2, v = 3, s = 1`. -/
theorem claim_C10_witness :
    (ResolutionRecord.new 2 3 1).registrations_count = 2 ∧
    (ResolutionRecord.new 2 3 1).values_count = 3 ∧
    (ResolutionRecord.new 2 3 1).items.length = 1 ∧
    (ResolutionRecord.new 2 3 1).items.getLast (by decide) =
      ResolutionRecordItem.defaultItem :=
  ⟨(claim_C10 2 3 1).1, (claim_C10 2 3 1).2.1, (claim_C10 2 3 1).2.2.1,
   (claim_C10 2 3 1).2.2.2.1 _ (List.getLast_mem _)⟩

/-- Claim C7: the `CircuitResolver` façade trait exposes exactly the methods
`new`, `set_value`, `add_resolution`, `wait_till_resolved`, `clear`, sits on
top of the `WitnessSource`/`WitnessSourceAwaitable` (and `CSWitnessSource`)
capabilities, and the module exposes exactly three façade variants: a null
test stub, a single-threaded resolver, and a multithreaded resolver
parameterized by a sorting strategy. -/
theorem claim_C7 :
    circuitResolverMethods.map MethodSig.name =
      ["new", "set_value", "add_resolution", "wait_till_resolved", "clear"] ∧
    "WitnessSource<F>" ∈ circuitResolverSupertraits ∧
    "WitnessSourceAwaitable<F>" ∈ circuitResolverSupertraits ∧
    circuitResolverVariants.map Prod.snd =
      [ResolverVariantKind.nullStub,
       ResolverVariantKind.multiThreaded "RuntimeResolverSorter",
       ResolverVariantKind.singleThreaded] ∧
    circuitResolverVariants.length = 3 := by
  refine ⟨rfl, ?_, ?_, rfl, rfl⟩ <;> decide

/-- Claim C8: the common sorting-strategy trait `ResolverSortingMode` (the
interface the discover and playback sorters implement — the module declares
the two implementing submodules `sorter_runtime` and `sorter_playback`)
includes the operations `new`, `set_value`, `add_resolution`, `flush`,
`final_flush`, `write_sequence` and `retrieve_sequence`, and
`retrieve_sequence` returns (a reference to) the resolution record. -/
theorem claim_C8 :
    "new" ∈ resolverSortingModeMethods.map MethodSig.name ∧
    "set_value" ∈ resolverSortingModeMethods.map MethodSig.name ∧
    "add_resolution" ∈ resolverSortingModeMethods.map MethodSig.name ∧
    "flush" ∈ resolverSortingModeMethods.map MethodSig.name ∧
    "final_flush" ∈ resolverSortingModeMethods.map MethodSig.name ∧
    "write_sequence" ∈ resolverSortingModeMethods.map MethodSig.name ∧
    "retrieve_sequence" ∈ resolverSortingModeMethods.map MethodSig.name ∧
    (resolverSortingModeMethods.filter
      (fun m => m.name == "retrieve_sequence")).map MethodSig.ret =
      ["&ResolutionRecord"] := by
  refine ⟨?_, ?_, ?_, ?_, ?_, ?_, ?_, rfl⟩ <;> decide

/-- Claim C1: value observation is monotonic — once `try_get_value` has
returned a value for a Place, any later observation after any further writes
returns the same value (variable store modelled from the spec); and once
`wait` has returned `Some(vs)`, the value holds `Ready(vs)` and every
subsequent `wait` call returns `Some(vs)` with the identical array, leaving
the state unchanged. -/
theorem claim_C1 :
    (∀ (F : Type) (st : VariableStore F) (writes : List (Place × F))
       (p : Place) (v : F),
      st.try_get_value p = some v →
      (st.runWrites writes).try_get_value p = some v) ∧
    (∀ (F : Type) (N : Nat) (s : CSWitnessValues F N) (h : s.terminates)
       (vs : Fin N → F),
      (s.wait h).result = some vs →
      (s.wait h).state = CSWitnessValues.Ready vs ∧
      ∀ h2 : (s.wait h).state.terminates,
        ((s.wait h).state.wait h2).result = some vs ∧
        ((s.wait h).state.wait h2).state = (s.wait h).state) := by
  constructor
  · intro F st writes p v hv
    exact runWrites_preserves writes st p v hv
  · intro F N s h vs hres
    have hready : (s.wait h).state = CSWitnessValues.Ready vs := by
      cases s with
      | Placeholder => exact absurd hres (by simp [CSWitnessValues.wait])
      | Ready v =>
        have hv : v = vs := by
          simpa [CSWitnessValues.wait] using hres
        simp [CSWitnessValues.wait, hv]
      | Waiting barrier ws srcs =>
        rw [wait_waiting_eq barrier ws srcs h] at hres ⊢
        have hv : readWitnesses ws srcs = vs := by simpa using hres
        simp [hv]
    refine ⟨hready, ?_⟩
    rw [hready]
    exact fun h2 => ⟨rfl, rfl⟩

/-- Witness for C1: a store holding 5 at place 0 still reads 5 after a write
to place 1, and a `Ready` value's `wait` leaves it `Ready` with the same
array. -/
theorem claim_C1_witness :
    (VariableStore.runWrites ⟨fun q => if q = ⟨0⟩ then some 5 else none⟩
        [(⟨1⟩, 7)]).try_get_value ⟨0⟩ = some 5 ∧
    ((CSWitnessValues.Ready (fun _ => (5 : Nat)) :
        CSWitnessValues Nat 1).wait True.intro).state =
      CSWitnessValues.Ready (fun _ => (5 : Nat)) :=
  ⟨claim_C1.1 Nat ⟨fun q => if q = ⟨0⟩ then some 5 else none⟩ [(⟨1⟩, 7)]
      ⟨0⟩ 5 (by decide),
   (claim_C1.2 Nat 1 (CSWitnessValues.Ready (fun _ => (5 : Nat)))
      True.intro (fun _ => (5 : Nat)) rfl).1⟩

/-- Claim C2 (evidence of the divergence): both barrier polls inside
`CSWitnessValues::wait` load the readiness flag with `Ordering::Relaxed`,
not with acquire semantics as the claim states. -/
theorem claim_C2_orderings :
    waitSpinBarrierLoadOrdering = AtomicOrdering.relaxed ∧
    waitSleepBarrierLoadOrdering = AtomicOrdering.relaxed ∧
    waitSpinBarrierLoadOrdering ≠ AtomicOrdering.acquire ∧
    waitSleepBarrierLoadOrdering ≠ AtomicOrdering.acquire := by
  refine ⟨rfl, rfl, ?_, ?_⟩ <;> decide

/-- Counterexample to claim C3 as stated: in the `ResolverSortingMode` trait,
`internalize` does not return the task's index — it receives the already
allocated `ResolverIx` as its first argument and returns `()`. -/
theorem claim_C3_counterexample :
    resolverSortingModeMethods.filter (fun m => m.name == "internalize") =
      [{ name := "internalize",
         params := ["ResolverIx", "&[Place]", "&[Place]", "RegistrationNum"],
         ret := "()" }] ∧
    ¬ ("()" = "ResolverIx") := by
  refine ⟨rfl, ?_⟩
  decide

/-- Claim C3 as amended: the sorting-mode `internalize` takes the task's
already-allocated resolver index together with inputs, outputs and
`added_at`, and returns no value; registration of a task fails with
`DuplicateOutput` exactly when some output Place is already claimed (by an
earlier task's outputs or a direct assignment), and otherwise records the
task under the next free index (registrar behaviour modelled from the
spec). -/
theorem claim_C3_amended :
    (resolverSortingModeMethods.filter (fun m => m.name == "internalize") =
      [{ name := "internalize",
         params := ["ResolverIx", "&[Place]", "&[Place]", "RegistrationNum"],
         ret := "()" }]) ∧
    (∀ (st : RegistrarState) (inputs outputs : List Place) (added_at : Nat),
      (registrarInternalize st inputs outputs added_at =
          .error .DuplicateOutput ↔ ∃ o ∈ outputs, o ∈ st.claimed)) ∧
    (∀ (st : RegistrarState) (inputs outputs : List Place) (added_at : Nat)
       (ix : Nat) (st2 : RegistrarState),
      registrarInternalize st inputs outputs added_at = .ok (ix, st2) →
      ix = st.tasks.length ∧
      st2.tasks = st.tasks ++ [(inputs, outputs, added_at)] ∧
      st2.claimed = st.claimed ++ outputs) := by
  have hcm : ∀ (l : List Place) (o : Place), l.contains o = true ↔ o ∈ l := by
    intro l o
    simp [List.contains]
  refine ⟨rfl, ?_, ?_⟩
  · intro st inputs outputs added_at
    unfold registrarInternalize
    by_cases hc : outputs.any (fun o => st.claimed.contains o) = true
    · rw [if_pos hc]
      simp only [List.any_eq_true] at hc
      obtain ⟨o, ho, hco⟩ := hc
      exact ⟨fun _ => ⟨o, ho, (hcm _ _).mp hco⟩, fun _ => rfl⟩
    · rw [if_neg hc]
      constructor
      · intro he
        exact absurd he (by simp)
      · intro hex
        exfalso
        apply hc
        simp only [List.any_eq_true]
        obtain ⟨o, ho, hmem⟩ := hex
        exact ⟨o, ho, (hcm _ _).mpr hmem⟩
  · intro st inputs outputs added_at ix st2 hok
    unfold registrarInternalize at hok
    by_cases hc : outputs.any (fun o => st.claimed.contains o) = true
    · rw [if_pos hc] at hok
      exact absurd hok (by simp)
    · rw [if_neg hc] at hok
      injection hok with hpair
      injection hpair with hix hst
      exact ⟨hix.symm, (congrArg RegistrarState.tasks hst).symm,
        (congrArg RegistrarState.claimed hst).symm⟩

/-- Witness for C3: registering a task whose output place 0 is already
claimed fails with `DuplicateOutput`; registering a fresh task in an empty
registrar succeeds with index 0, recording the task and claiming its
output. -/
theorem claim_C3_witness :
    registrarInternalize ⟨[⟨0⟩], []⟩ [] [⟨0⟩] 5 =
      Except.error RegistrationError.DuplicateOutput ∧
    ((0 : Nat) = (⟨[], []⟩ : RegistrarState).tasks.length ∧
     (⟨[⟨2⟩], [([⟨1⟩], [⟨2⟩], 9)]⟩ : RegistrarState).tasks =
       (⟨[], []⟩ : RegistrarState).tasks ++ [([⟨1⟩], [⟨2⟩], 9)] ∧
     (⟨[⟨2⟩], [([⟨1⟩], [⟨2⟩], 9)]⟩ : RegistrarState).claimed =
       (⟨[], []⟩ : RegistrarState).claimed ++ [⟨2⟩]) := by
  constructor
  · exact (claim_C3_amended.2.1 ⟨[⟨0⟩], []⟩ [] [⟨0⟩] 5).mpr
      ⟨⟨0⟩, by decide, by decide⟩
  · exact claim_C3_amended.2.2 ⟨[], []⟩ [⟨1⟩] [⟨2⟩] 9 0
      ⟨[⟨2⟩], [([⟨1⟩], [⟨2⟩], 9)]⟩ rfl

/-- Claim C4: on a `Waiting` value, `wait` polls the readiness barrier in a
bounded busy-spin of at most `NUM_SPINS = 16` iterations; if the flag is
still not raised it sleeps a fixed `SLEEP_DURATION = 10 ms` interval between
successive polls, and returns the values only once the flag is observed
raised: with `k` the index of the first raised observation it does `k + 1`
polls and `k - 15` sleeps (zero sleeps whenever `k < 16`). -/
theorem claim_C4 :
    NUM_SPINS = 16 ∧ SLEEP_DURATION_MS = 10 ∧
    ∀ (F : Type) (N : Nat) (barrier : Nat → Bool) (witness_source : Place → F)
      (sources : Fin N → Place) (h : ∃ n, barrier n = true),
      ((CSWitnessValues.Waiting barrier witness_source sources).wait h).result =
        some (readWitnesses witness_source sources) ∧
      ((CSWitnessValues.Waiting barrier witness_source sources).wait h).state =
        CSWitnessValues.Ready (readWitnesses witness_source sources) ∧
      ((CSWitnessValues.Waiting barrier witness_source sources).wait h).loads =
        Nat.find h + 1 ∧
      ((CSWitnessValues.Waiting barrier witness_source sources).wait h).sleeps =
        Nat.find h - (NUM_SPINS - 1) ∧
      (Nat.find h < NUM_SPINS →
        ((CSWitnessValues.Waiting barrier witness_source sources).wait
          h).sleeps = 0) := by
  refine ⟨rfl, rfl, ?_⟩
  intro F N barrier witness_source sources h
  rw [wait_waiting_eq barrier witness_source sources h]
  refine ⟨rfl, rfl, rfl, rfl, fun hlt => ?_⟩
  show Nat.find h - (NUM_SPINS - 1) = 0
  simp only [NUM_SPINS] at hlt ⊢
  omega

/-- Witness for C4: with the flag already raised at the first poll, `wait`
does one load, zero sleeps, and returns the values. -/
theorem claim_C4_witness :
    ((CSWitnessValues.Waiting (fun _ => true) (fun p => p.id)
        (fun _ : Fin 1 => ⟨3⟩)).wait ⟨0, rfl⟩).loads = 1 ∧
    ((CSWitnessValues.Waiting (fun _ => true) (fun p => p.id)
        (fun _ : Fin 1 => ⟨3⟩)).wait ⟨0, rfl⟩).sleeps = 0 ∧
    ((CSWitnessValues.Waiting (fun _ => true) (fun p => p.id)
        (fun _ : Fin 1 => ⟨3⟩)).wait ⟨0, rfl⟩).result =
      some (readWitnesses (fun p => p.id) (fun _ : Fin 1 => ⟨3⟩)) := by
  obtain ⟨h1, h2, h3, h4, h5⟩ :=
    claim_C4.2.2 Nat 1 (fun _ => true) (fun p => p.id)
      (fun _ : Fin 1 => ⟨3⟩) ⟨0, rfl⟩
  have hf : Nat.find (⟨0, rfl⟩ : ∃ n, (fun _ : Nat => true) n = true) = 0 :=
    (Nat.find_eq_zero _).mpr rfl
  rw [hf] at h3
  exact ⟨h3, h5 (by rw [hf]; decide), h1⟩

/-- Claim C9: `wait` on `Placeholder` returns `None` immediately — no barrier
loads, no sleeps, no witness-source reads, state unchanged — and
`Placeholder` is the only input for which a (terminating) `wait` call returns
`None`. -/
theorem claim_C9 :
    (∀ (F : Type) (N : Nat),
      (CSWitnessValues.Placeholder : CSWitnessValues F N).wait True.intro =
        ⟨none, CSWitnessValues.Placeholder, 0, 0, 0⟩) ∧
    (∀ (F : Type) (N : Nat) (s : CSWitnessValues F N) (h : s.terminates),
      (s.wait h).result = none → s = CSWitnessValues.Placeholder) := by
  constructor
  · intro F N
    rfl
  · intro F N s h hres
    cases s with
    | Placeholder => rfl
    | Ready v => exact absurd hres (by simp [CSWitnessValues.wait])
    | Waiting barrier witness_source sources =>
      rw [wait_waiting_eq barrier witness_source sources h] at hres
      exact absurd hres (by simp)

/-- Witness for C9 at `F = Nat, N = 2`. -/
theorem claim_C9_witness :
    (CSWitnessValues.Placeholder : CSWitnessValues Nat 2).wait True.intro =
      ⟨none, CSWitnessValues.Placeholder, 0, 0, 0⟩ ∧
    (CSWitnessValues.Placeholder : CSWitnessValues Nat 2) =
      CSWitnessValues.Placeholder :=
  ⟨claim_C9.1 Nat 2,
   claim_C9.2 Nat 2 CSWitnessValues.Placeholder True.intro rfl⟩

/-- Witness for C5 at `n = 7`. -/
theorem claim_C5_witness :
    (CircuitResolverOpts.new 7).max_variables = 7 ∧
    (CircuitResolverOpts.new 7).desired_parallelism = 4096 :=
  ⟨(claim_C5 7).1, (claim_C5 7).2.1⟩
